import Mathlib

/-!
Verification of the Commandline library (a cl::-style command-line option
framework) against its specification.  The definitions below are a shallow
embedding of the C++ sources: `OptionEnum.h`, `Option.h`, `Opt.h`, `List.h`,
`Bits.h`, `Alias.h`, `Parser.h` (the value parsers), and `ManagedStatic.cc`.
Machine integers (`uint16_t` fields) are modelled as `Nat` with explicit
reduction modulo 2^16 where an overflow could occur; fallible operations
return an explicit error flag exactly as the C++ returns `bool`
(true = error); a C++ assertion failure is modelled as `Option.none`.
-/

namespace Commandline

/-- Flags for the number of occurrences allowed (enum NumOccurrencesFlag,
OptionEnum.h lines 10-24). -/
inductive NumOccurrencesFlag where
  | optional
  | zeroOrMore
  | required
  | oneOrMore
  | consumeAfter
deriving DecidableEq, Repr

/-- Whether a value is required for the option (enum ValueExpected,
OptionEnum.h lines 26-31).  In the C++ the enumerators are encoded as
1, 2, 3; the encoding zero is reserved for "unspecified". -/
inductive ValueExpected where
  | valueOptional
  | valueRequired
  | valueDisallowed
deriving DecidableEq, Repr

/-- The integer encoding of a ValueExpected enumerator as stored in the
2-bit `Value` bitfield of class Option (OptionEnum.h: ValueOptional = 0x01,
ValueRequired = 0x02, ValueDisallowed = 0x03). -/
def ValueExpected.encode : ValueExpected → Nat
  | .valueOptional => 1
  | .valueRequired => 2
  | .valueDisallowed => 3

/-- The static_cast of a nonzero 2-bit `Value` bitfield back to the
ValueExpected enumeration (Option.h line 65). -/
def decodeValueExpected : Nat → ValueExpected
  | 1 => .valueOptional
  | 2 => .valueRequired
  | _ => .valueDisallowed

/-- Control whether -help shows this option (enum OptionHidden,
OptionEnum.h lines 33-37). -/
inductive OptionHidden where
  | notHidden
  | hidden
  | reallyHidden
deriving DecidableEq, Repr

/-- Formatting flags (enum FormattingFlags, OptionEnum.h lines 53-58). -/
inductive FormattingFlags where
  | normalFormatting
  | positionalFmt
  | prefixFmt
  | alwaysPrefixFmt
deriving DecidableEq, Repr

/-- Miscellaneous flag bit positions (enum MiscFlags, OptionEnum.h lines
60-74): CommaSeparated = 0x01, PositionalEatsArgs = 0x02, Sink = 0x04,
Grouping = 0x08, DefaultOption = 0x10. -/
def miscDefaultOptionBit : Nat := 4

/-- The data members of class Option (Option.h lines 36-58), as far as the
verified properties observe them.  `NumOccurrences` and `Position` are
`uint16_t` in the source and are kept as `Nat` reduced modulo 2^16 at each
update; `Value` is the raw 2-bit bitfield whose zero encoding means
"value-expectation unspecified"; `Misc` is the raw 5-bit mask. -/
structure OptionCore where
  numOccurrences : Nat
  occurrences : NumOccurrencesFlag
  value : Nat
  hiddenFlag : OptionHidden
  formatting : FormattingFlags
  misc : Nat
  fullyInitialized : Bool
  position : Nat
  additionalVals : Nat
  argStr : String
deriving DecidableEq, Repr

/-- The protected Option constructor (Option.h lines 117-129): it zeroes
NumOccurrences, Value, Misc, FullyInitialized, Position and AdditionalVals,
sets Formatting to NormalFormatting, and takes the occurrences flag and the
hidden flag from its two arguments.  ArgStr starts empty. -/
def OptionCore.mkBase (occurrencesFlag : NumOccurrencesFlag)
    (hiddenF : OptionHidden) : OptionCore :=
  { numOccurrences := 0
    occurrences := occurrencesFlag
    value := 0
    hiddenFlag := hiddenF
    formatting := .normalFormatting
    misc := 0
    fullyInitialized := false
    position := 0
    additionalVals := 0
    argStr := "" }

/-- Option::setValueExpectedFlag (Option.h line 108): stores the enum value
into the 2-bit `Value` bitfield. -/
def OptionCore.setValueExpectedFlag (o : OptionCore) (v : ValueExpected) :
    OptionCore :=
  { o with value := v.encode }

/-- Option::getValueExpectedFlag (Option.h lines 64-67): return the stored
`Value` field if nonzero, otherwise the virtual
getValueExpectedFlagDefault(), which concrete option classes forward to
their parser (Opt.h lines 135-137); the parser's advertised default is the
`parserDefault` argument here. -/
def OptionCore.getValueExpectedFlag (o : OptionCore)
    (parserDefault : ValueExpected) : ValueExpected :=
  if o.value ≠ 0 then decodeValueExpected o.value else parserDefault

/-- The initial Option state built by the alias constructor
(Alias.h line 67): `Option(Optional, Hidden)`. -/
def aliasCtorInit : OptionCore := OptionCore.mkBase .optional .hidden

/-- The initial Option state built by the opt constructor
(Opt.h line 197): `Option(Optional, NotHidden)`. -/
def optCtorInit : OptionCore := OptionCore.mkBase .optional .notHidden

/-- The initial Option state built by the list constructor
(List.h line 238): `Option(ZeroOrMore, NotHidden)`. -/
def listCtorInit : OptionCore := OptionCore.mkBase .zeroOrMore .notHidden

/-- The initial Option state built by the bits constructor
(Bits.h line 155): `Option(ZeroOrMore, NotHidden)`. -/
def bitsCtorInit : OptionCore := OptionCore.mkBase .zeroOrMore .notHidden

/-- C2: getValueExpectedFlag returns the explicitly set value-expectation
when one was set via setValueExpectedFlag (each enumerator's encoding is
nonzero, so the stored field is returned), and when the `Value` field is
zero (Unspecified) it returns the parser's advertised default instead. -/
theorem getValueExpectedFlag_set_or_default (o : OptionCore)
    (parserDefault : ValueExpected) :
    (∀ v : ValueExpected,
      (o.setValueExpectedFlag v).getValueExpectedFlag parserDefault = v) ∧
    (o.value = 0 → o.getValueExpectedFlag parserDefault = parserDefault) := by
  constructor
  · intro v
    cases v <;>
      simp [OptionCore.setValueExpectedFlag, OptionCore.getValueExpectedFlag,
        ValueExpected.encode, decodeValueExpected]
  · intro h
    simp [OptionCore.getValueExpectedFlag, h]

/-- Witness for C2 at a concrete option: a freshly constructed opt has
`Value = 0`, and its effective value-expectation is the parser default. -/
theorem getValueExpectedFlag_set_or_default_witness :
    optCtorInit.getValueExpectedFlag .valueRequired = .valueRequired :=
  (getValueExpectedFlag_set_or_default optCtorInit .valueRequired).2 rfl

/-- C8: an alias constructed without an explicit hidden-flag modifier starts
with hidden flag Hidden, whereas opt, list, and bits options constructed
without a modifier start NotHidden. -/
theorem ctor_hidden_defaults :
    aliasCtorInit.hiddenFlag = .hidden ∧
    optCtorInit.hiddenFlag = .notHidden ∧
    listCtorInit.hiddenFlag = .notHidden ∧
    bitsCtorInit.hiddenFlag = .notHidden :=
  ⟨rfl, rfl, rfl, rfl⟩

/-- The contained specialization opt_storage<DataType, false, false>
(Opt.h lines 86-111): a value plus an `OptionValue<DataType>` default,
which starts invalid (`none` here) and becomes valid when a value is
assigned to it. -/
structure OptStorageContained (α : Type) where
  value : α
  default : Option α
deriving DecidableEq, Repr

/-- opt_storage::setValue (Opt.h lines 96-101): store V, and when
`initial` is set also record it as the declared default. -/
def OptStorageContained.setValue (s : OptStorageContained α) (v : α)
    (initial : Bool) : OptStorageContained α :=
  { value := v, default := if initial then some v else s.default }

/-- A scalar opt option with contained storage: the Option base state plus
its opt_storage (Opt.h lines 116-120). -/
structure OptScalar (α : Type) where
  core : OptionCore
  store : OptStorageContained α
deriving DecidableEq, Repr

/-- opt::setInitialValue (Opt.h line 185), used by the cl::init modifier:
`setValue(V, true)`. -/
def optSetInitialValue (s : OptScalar α) (v : α) : OptScalar α :=
  { s with store := s.store.setValue v true }

/-- opt::setDefault (Opt.h lines 160-172): setDefaultImpl reads the
recorded default; if it holds a value, setValue with it, otherwise
setValue with a default-constructed DataType() — passed here as `zero`.
Nothing else in the option is touched. -/
def optSetDefault (zero : α) (s : OptScalar α) : OptScalar α :=
  match s.store.default with
  | some v => { s with store := s.store.setValue v false }
  | none => { s with store := s.store.setValue zero false }

/-- A concrete scalar option state mid-parse: two occurrences seen, storage
holding 9, with a declared initial value of 7. -/
def c3OptState : OptScalar Nat :=
  { core := { OptionCore.mkBase .optional .notHidden with numOccurrences := 2 }
    store := { value := 9, default := some 7 } }

/-- C3 counterexample: opt::setDefault does not reset the occurrence count.
On a scalar option that has been matched twice, setDefault restores the
storage but leaves NumOccurrences at 2, contradicting the claim that it
"resets the option's occurrence_count to zero". -/
theorem optSetDefault_keeps_numOccurrences :
    (optSetDefault 0 c3OptState).core.numOccurrences ≠ 0 := by decide

/-- C3 (amended): opt::setDefault restores the option's storage to the
declared initial value when one was declared (via init/setInitialValue),
otherwise to the value type's zero value DataType(); it leaves the Option
base state — in particular the occurrence count — and the recorded default
unchanged.  Occurrence counts are reset separately (by Option::reset, not
by setDefault). -/
theorem optSetDefault_restores_storage (zero : α) (s : OptScalar α) :
    (∀ v, s.store.default = some v → (optSetDefault zero s).store.value = v) ∧
    (s.store.default = none → (optSetDefault zero s).store.value = zero) ∧
    (optSetDefault zero s).core = s.core ∧
    (optSetDefault zero s).store.default = s.store.default := by
  refine ⟨?_, ?_, ?_, ?_⟩ <;>
    cases h : s.store.default <;>
      simp_all [optSetDefault, OptStorageContained.setValue]

/-- Witness for C3 (amended) at the concrete state above: the declared
default 7 is restored, the occurrence count stays 2. -/
theorem optSetDefault_restores_storage_witness :
    (optSetDefault 0 c3OptState).store.value = 7 :=
  (optSetDefault_restores_storage 0 c3OptState).1 7 rfl

/-- The external-storage specialization opt_storage<DataType, true, _>
(Opt.h lines 15-58).  The bound location is modelled by an address
(`none` = the null Location pointer) together with `loc`, the contents of
the pointed-to variable; `default` is the OptionValue default.  The C++
setValue/getValue assert that a location has been bound; theorems about
this storage therefore carry that hypothesis where the assert matters. -/
structure OptStorageExt (α : Type) where
  location : Option Nat
  loc : α
  default : Option α
deriving DecidableEq, Repr

/-- The diagnostic emitted when cl::location is bound twice (Opt.h line 32,
List.h line 34, Bits.h line 34). -/
def locationTwiceMsg : String := "cl::location(x) specified more than once!"

/-- opt_storage::setLocation (Opt.h lines 30-36): if a location is already
bound, report `O.error("cl::location(x) specified more than once!")` —
which always returns true — and change nothing; otherwise bind the
location, copy its current value into the default, and return false.
The result is (returned bool, emitted diagnostic, new storage). -/
def OptStorageExt.setLocation (st : OptStorageExt α) (addr : Nat)
    (curVal : α) : Bool × Option String × OptStorageExt α :=
  match st.location with
  | some _ => (true, some locationTwiceMsg, st)
  | none =>
      (false, none, { location := some addr, loc := curVal, default := some curVal })

/-- opt_storage (external)::setValue (Opt.h lines 38-44): write through the
location; when `initial` is set also record the default. -/
def OptStorageExt.setValue (st : OptStorageExt α) (v : α) (initial : Bool) :
    OptStorageExt α :=
  { st with loc := v, default := if initial then some v else st.default }

/-- A scalar opt option with external storage. -/
structure OptScalarExt (α : Type) where
  core : OptionCore
  store : OptStorageExt α
deriving DecidableEq, Repr

/-- opt::setDefault for external storage (Opt.h lines 160-172, same
setDefaultImpl as the contained case but writing through opt_storage's
external setValue). -/
def optExtSetDefault (zero : α) (s : OptScalarExt α) : OptScalarExt α :=
  match s.store.default with
  | some v => { s with store := s.store.setValue v false }
  | none => { s with store := s.store.setValue zero false }

/-- The internal specialization list_storage<DataType, bool>
(List.h lines 66-146): a Storage vector, the Default vector of
OptionValues (each entry pushed valid, so plain values here), and the
DefaultAssigned flag. -/
structure ListStorageInt (α : Type) where
  storage : List α
  default : List α
  defaultAssigned : Bool
deriving DecidableEq, Repr

/-- list_storage<DataType, bool>::addValue (List.h lines 132-137): push to
Storage; when `initial` is set also push to Default. -/
def ListStorageInt.addValue (st : ListStorageInt α) (v : α)
    (initial : Bool) : ListStorageInt α :=
  { st with storage := st.storage ++ [v]
            default := if initial then st.default ++ [v] else st.default }

/-- A list option with internal storage: Option base state, the Positions
vector, and its list_storage (List.h lines 151-154). -/
structure ListInt (α : Type) where
  core : OptionCore
  positions : List Nat
  store : ListStorageInt α
deriving DecidableEq, Repr

/-- list::clear (List.h lines 220-223): clear Positions and clear the
storage; for the internal specialization list_storage::clear() clears the
Storage vector (List.h line 98). -/
def ListInt.clear (s : ListInt α) : ListInt α :=
  { s with positions := [], store := { s.store with storage := [] } }

/-- list::setDefault (List.h lines 196-201): clear Positions, call
list_storage::clear() — which for internal storage empties the Storage
vector — then re-add every recorded default value with addValue. -/
def listIntSetDefault (s : ListInt α) : ListInt α :=
  let st0 : ListStorageInt α := { s.store with storage := [] }
  { s with positions := []
           store := st0.default.foldl (fun st v => st.addValue v false) st0 }

/-- list::setInitialValues (List.h lines 226-232), used by the cl::list_init
modifier: assert the default is not already assigned, set DefaultAssigned,
then addValue(V, true) for each provided value. -/
def listIntSetInitialValues (vs : List α) (s : ListInt α) : ListInt α :=
  let st0 : ListStorageInt α := { s.store with defaultAssigned := true }
  { s with store := vs.foldl (fun st v => st.addValue v true) st0 }

/-- list::handleOccurrence for internal storage (List.h lines 166-181):
if the default is currently assigned, clear() and overwriteDefault()
before parsing; then parse the raw argument (`parse` abstracts the typed
value parser, `none` = parse error = return true); on success addValue,
setPosition(pos) — a uint16_t store — and push pos onto Positions. -/
def listIntHandleOccurrence (parse : String → Option α) (pos : Nat)
    (arg : String) (s : ListInt α) : Bool × ListInt α :=
  let s1 : ListInt α :=
    if s.store.defaultAssigned then
      let sc := s.clear
      { sc with store := { sc.store with defaultAssigned := false } }
    else s
  match parse arg with
  | none => (true, s1)
  | some v =>
      (false, { s1 with
                  core := { s1.core with position := pos % 65536 }
                  positions := s1.positions ++ [pos]
                  store := s1.store.addValue v false })

/-- The external-storage specialization list_storage<DataType, StorageClass>
(List.h lines 20-56): a bound location (an address, `none` = null) whose
pointed-to vector contents are `loc`, plus Default and DefaultAssigned.
Its addValue asserts the location is bound. -/
structure ListStorageExt (α : Type) where
  location : Option Nat
  loc : List α
  default : List α
  defaultAssigned : Bool
deriving DecidableEq, Repr

/-- list_storage (external)::setLocation (List.h lines 32-37): error (true,
with the location-twice diagnostic) if already bound, else bind and return
false. -/
def ListStorageExt.setLocation (st : ListStorageExt α) (addr : Nat) :
    Bool × Option String × ListStorageExt α :=
  match st.location with
  | some _ => (true, some locationTwiceMsg, st)
  | none => (false, none, { st with location := some addr })

/-- list_storage (external)::addValue (List.h lines 39-47): push through
the location; when `initial` is set also push to Default. -/
def ListStorageExt.addValue (st : ListStorageExt α) (v : α)
    (initial : Bool) : ListStorageExt α :=
  { st with loc := st.loc ++ [v]
            default := if initial then st.default ++ [v] else st.default }

/-- A list option with external storage. -/
structure ListExt (α : Type) where
  core : OptionCore
  positions : List Nat
  store : ListStorageExt α
deriving DecidableEq, Repr

/-- list::clear for external storage (List.h lines 220-223): Positions is
cleared, but list_storage::clear() for the external specialization is a
no-op (List.h line 30), so the pointed-to vector keeps its contents. -/
def ListExt.clear (s : ListExt α) : ListExt α :=
  { s with positions := [] }

/-- list::setDefault for external storage (List.h lines 196-201): clear
Positions, call the no-op external list_storage::clear(), then re-add every
recorded default value through the location with addValue. -/
def listExtSetDefault (s : ListExt α) : ListExt α :=
  let st0 := s.store
  { s with positions := []
           store := st0.default.foldl (fun st v => st.addValue v false) st0 }

/-- list::setInitialValues for external storage (List.h lines 226-232). -/
def listExtSetInitialValues (vs : List α) (s : ListExt α) : ListExt α :=
  let st0 : ListStorageExt α := { s.store with defaultAssigned := true }
  { s with store := vs.foldl (fun st v => st.addValue v true) st0 }

/-- list::handleOccurrence for external storage (List.h lines 166-181):
identical control flow to the internal case, but clear() leaves the
pointed-to vector untouched. -/
def listExtHandleOccurrence (parse : String → Option α) (pos : Nat)
    (arg : String) (s : ListExt α) : Bool × ListExt α :=
  let s1 : ListExt α :=
    if s.store.defaultAssigned then
      let sc := s.clear
      { sc with store := { sc.store with defaultAssigned := false } }
    else s
  match parse arg with
  | none => (true, s1)
  | some v =>
      (false, { s1 with
                  core := { s1.core with position := pos % 65536 }
                  positions := s1.positions ++ [pos]
                  store := s1.store.addValue v false })

/-- The internal specialization bits_storage<DataType, bool>
(Bits.h lines 63-89): an unsigned bit mask, starting at 0. -/
structure BitsStorageInt where
  bitsVal : Nat
deriving DecidableEq, Repr

/-- A bits option with internal storage (Bits.h lines 94-98). -/
structure BitsInt where
  core : OptionCore
  positions : List Nat
  store : BitsStorageInt
deriving DecidableEq, Repr

/-- bits::setDefault (Bits.h line 134): bits_storage::clear(), which for
internal storage zeroes the mask (Bits.h line 83).  Positions are not
touched. -/
def bitsIntSetDefault (s : BitsInt) : BitsInt :=
  { s with store := { bitsVal := 0 } }

/-- The external specialization bits_storage<DataType, StorageClass>
(Bits.h lines 17-58): a bound unsigned location (`none` = null) with
pointed-to contents `loc`. -/
structure BitsStorageExt where
  location : Option Nat
  loc : Nat
deriving DecidableEq, Repr

/-- bits_storage (external)::setLocation (Bits.h lines 32-37). -/
def BitsStorageExt.setLocation (st : BitsStorageExt) (addr : Nat) :
    Bool × Option String × BitsStorageExt :=
  match st.location with
  | some _ => (true, some locationTwiceMsg, st)
  | none => (false, none, { st with location := some addr })

/-- A bits option with external storage. -/
structure BitsExt where
  core : OptionCore
  positions : List Nat
  store : BitsStorageExt
deriving DecidableEq, Repr

/-- bits::setDefault for external storage (Bits.h line 134):
bits_storage::clear() zeroes the pointed-to word only when a location is
bound (Bits.h lines 49-52). -/
def bitsExtSetDefault (s : BitsExt) : BitsExt :=
  match s.store.location with
  | some _ => { s with store := { s.store with loc := 0 } }
  | none => s

/-- Folding addValue with `initial = false` over the internal list storage
only appends to the Storage vector. -/
theorem listStorageInt_foldl_addValue (l : List α) (st : ListStorageInt α) :
    l.foldl (fun st v => st.addValue v false) st
      = { st with storage := st.storage ++ l } := by
  induction l generalizing st with
  | nil => simp
  | cons x xs ih =>
      rw [List.foldl_cons, ih]
      simp [ListStorageInt.addValue, List.append_assoc]

/-- Folding addValue with `initial = false` over the external list storage
only appends to the pointed-to vector. -/
theorem listStorageExt_foldl_addValue (l : List α) (st : ListStorageExt α) :
    l.foldl (fun st v => st.addValue v false) st
      = { st with loc := st.loc ++ l } := by
  induction l generalizing st with
  | nil => simp
  | cons x xs ih =>
      rw [List.foldl_cons, ih]
      simp [ListStorageExt.addValue, List.append_assoc]

/-- A registered external-storage list with a bound location, one
command-line value already in the pointed-to vector, and one declared
default value. -/
def c4ListExtState : ListExt Nat :=
  { core := listCtorInit
    positions := []
    store := { location := some 0, loc := [5], default := [7],
               defaultAssigned := true } }

/-- C4 counterexample: resetting to defaults is not idempotent for an
external-storage list.  list::setDefault calls the external
list_storage::clear(), which is a no-op, and then re-appends the declared
defaults through the location, so each call grows the pointed-to vector:
after one call the contents are [5, 7], after two they are [5, 7, 7]. -/
theorem listExtSetDefault_not_idempotent :
    listExtSetDefault (listExtSetDefault c4ListExtState)
      ≠ listExtSetDefault c4ListExtState := by decide

/-- C4 (amended): setDefault twice in a row leaves the option in exactly
the state of calling it once for scalar opt options (contained and
external storage), internal-storage list options, and bits options
(internal and external storage); the external-storage list is the
exception forced by the counterexample, since its setDefault appends the
declared defaults to the pointed-to vector on every call. -/
theorem setDefault_idempotent (zero : α) :
    (∀ s : OptScalar α,
        optSetDefault zero (optSetDefault zero s) = optSetDefault zero s) ∧
    (∀ s : OptScalarExt α,
        optExtSetDefault zero (optExtSetDefault zero s)
          = optExtSetDefault zero s) ∧
    (∀ s : ListInt α,
        listIntSetDefault (listIntSetDefault s) = listIntSetDefault s) ∧
    (∀ s : BitsInt,
        bitsIntSetDefault (bitsIntSetDefault s) = bitsIntSetDefault s) ∧
    (∀ s : BitsExt,
        bitsExtSetDefault (bitsExtSetDefault s) = bitsExtSetDefault s) := by
  refine ⟨?_, ?_, ?_, ?_, ?_⟩
  · intro s
    cases h : s.store.default <;>
      simp [optSetDefault, OptStorageContained.setValue, h]
  · intro s
    cases h : s.store.default <;>
      simp [optExtSetDefault, OptStorageExt.setValue, h]
  · intro s
    simp [listIntSetDefault, listStorageInt_foldl_addValue]
  · intro s
    simp [bitsIntSetDefault]
  · intro s
    cases h : s.store.location <;> simp [bitsExtSetDefault, h]

/-- C6: for each of the three external storages (scalar opt, list, bits),
the first setLocation call binds the given location and returns false, and
every later call returns true with the "cl::location(x) specified more
than once!" diagnostic while leaving the storage — in particular the
originally bound location — unchanged. -/
theorem setLocation_binds_once (α : Type) :
    (∀ (st : OptStorageExt α) (addr : Nat) (cv : α), st.location = none →
        st.setLocation addr cv
          = (false, none, ⟨some addr, cv, some cv⟩)) ∧
    (∀ (st : OptStorageExt α) (addr : Nat) (cv : α) (a : Nat),
        st.location = some a →
        st.setLocation addr cv = (true, some locationTwiceMsg, st)) ∧
    (∀ (st : ListStorageExt α) (addr : Nat), st.location = none →
        st.setLocation addr = (false, none, { st with location := some addr })) ∧
    (∀ (st : ListStorageExt α) (addr a : Nat), st.location = some a →
        st.setLocation addr = (true, some locationTwiceMsg, st)) ∧
    (∀ (st : BitsStorageExt) (addr : Nat), st.location = none →
        st.setLocation addr = (false, none, { st with location := some addr })) ∧
    (∀ (st : BitsStorageExt) (addr a : Nat), st.location = some a →
        st.setLocation addr = (true, some locationTwiceMsg, st)) := by
  refine ⟨?_, ?_, ?_, ?_, ?_, ?_⟩ <;> intro st addr <;>
    first
      | (intro cv h
         simp [OptStorageExt.setLocation, h])
      | (intro cv a h
         simp [OptStorageExt.setLocation, h])
      | (intro h
         simp [ListStorageExt.setLocation, BitsStorageExt.setLocation, h])
      | (intro a h
         simp [ListStorageExt.setLocation, BitsStorageExt.setLocation, h])

/-- Witness for C6: binding a fresh scalar external storage to address 3
succeeds, copies the variable's current value 0 into the default, and
records the binding. -/
theorem setLocation_binds_once_witness :
    OptStorageExt.setLocation (⟨none, 0, none⟩ : OptStorageExt Nat) 3 0
      = (false, none, ⟨some 3, 0, some 0⟩) :=
  (setLocation_binds_once Nat).1 ⟨none, 0, none⟩ 3 0 rfl

/-- parser<char>::parse (Parser.h lines 556-561 and the monolithic
CommandLine.h lines 1185-1188): `value = arg[0]; return false;`.
llvm::StringRef::operator[] asserts its index is within the string, so on
the empty raw string the read is out of bounds and the assertion fails;
that partiality is modelled as `none`.  On a nonempty raw string the parse
stores the first character and returns false (no error). -/
def charParserParse (arg : List Char) : Option (Bool × Char) :=
  match arg with
  | [] => none
  | c :: _ => some (false, c)

/-- C7 counterexample: the char parser is not defined on the empty raw
string — `arg[0]` is an out-of-bounds StringRef read there, so parse does
not succeed on every raw string it can be handed. -/
theorem charParserParse_empty_undefined : charParserParse [] = none := rfl

/-- C7 (amended): on every nonempty raw argument string the char value
parser succeeds (returns false) and stores the first character of the raw
string; on the empty string the StringRef bounds assertion fails, so the
parse is defined only for nonempty raw strings. -/
theorem charParserParse_nonempty (c : Char) (cs : List Char) :
    charParserParse (c :: cs) = some (false, c) := rfl

/-- parser<std::string>::parse (Parser.h lines 526-535): the identity
parser — `value = arg.str(); return false;` — used as the concrete typed
value parser instantiating the abstract parse callback in witnesses. -/
def stringParserParse (arg : String) : Option String := some arg

/-- A fresh external-storage list with a bound location and no values. -/
def c9FreshExt : ListExt String :=
  { core := listCtorInit
    positions := []
    store := { location := some 0, loc := [], default := [],
               defaultAssigned := false } }

/-- The same list after the cl::list_init modifier installed the default
value "7": the pointed-to vector holds ["7"] and DefaultAssigned is set. -/
def c9AfterInit : ListExt String := listExtSetInitialValues ["7"] c9FreshExt

/-- C9 counterexample: on an external-storage list whose defaults came
from setInitialValues, the first successful handleOccurrence does not
clear the stored default values: clear() is a no-op on the pointed-to
vector, so after parsing "9" the storage holds ["7", "9"] — not only
values parsed from the command line. -/
theorem listExtHandleOccurrence_keeps_defaults :
    (listExtHandleOccurrence stringParserParse 1 "9" c9AfterInit).1 = false ∧
    (listExtHandleOccurrence stringParserParse 1 "9" c9AfterInit).2.store.loc
      ≠ ["9"] := by
  decide

/-- C9 (amended): for an internal-storage list option whose default values
were assigned via setInitialValues, the first successful handleOccurrence
clears the stored default values and marks the default as overwritten
before appending the newly parsed value — so after it the storage contains
exactly the one parsed value — and subsequent occurrences append without
clearing.  (For external-storage lists the clear is a no-op on the
pointed-to vector, as the counterexample shows.) -/
theorem listIntHandleOccurrence_first_clears (parse : String → Option α)
    (pos : Nat) (arg : String) (v : α) (hp : parse arg = some v) :
    (∀ s : ListInt α, s.store.defaultAssigned = true →
        (listIntHandleOccurrence parse pos arg s).1 = false ∧
        (listIntHandleOccurrence parse pos arg s).2.store.storage = [v] ∧
        (listIntHandleOccurrence parse pos arg s).2.store.defaultAssigned
          = false) ∧
    (∀ s : ListInt α, s.store.defaultAssigned = false →
        (listIntHandleOccurrence parse pos arg s).1 = false ∧
        (listIntHandleOccurrence parse pos arg s).2.store.storage
          = s.store.storage ++ [v] ∧
        (listIntHandleOccurrence parse pos arg s).2.store.defaultAssigned
          = false) := by
  constructor <;> intro s h <;>
    simp [listIntHandleOccurrence, h, hp, ListInt.clear,
      ListStorageInt.addValue]

/-- An internal-storage list after cl::list_init installed the default
"7". -/
def c9IntAfterInit : ListInt String :=
  listIntSetInitialValues ["7"]
    { core := listCtorInit
      positions := []
      store := { storage := [], default := [], defaultAssigned := false } }

/-- Witness for C9 (amended): parsing "9" into the internal-storage list
whose default ["7"] was installed by list_init leaves exactly ["9"] in the
storage with the default marked overwritten. -/
theorem listIntHandleOccurrence_first_clears_witness :
    (listIntHandleOccurrence stringParserParse 1 "9"
        c9IntAfterInit).2.store.storage = ["9"] :=
  ((listIntHandleOccurrence_first_clears stringParserParse 1 "9" "9" rfl).1
    c9IntAfterInit (by decide)).2.1

/-- A type-erased target option as the alias sees it: the Option base
state plus its typed storage, abstracted as σ (the alias never inspects
the storage, only forwards to the target). -/
structure TargetOpt (σ : Type) where
  core : OptionCore
  store : σ

/-- Modelled from the spec: the out-of-line body of Option::addOccurrence
is not under src/ — Option.h lines 176-180 declare only "Wrapper around
handleOccurrence that enforces Flags".  Spec section 4.B: add_occurrence
enforces cardinality before dispatch — a second occurrence of an Optional
(or Required) option is reported unless the option is DefaultOption
(Misc bit 0x10) or multi_arg is set, which signals additional-value
continuation and increments no further occurrence counter; on success it
increments occurrence_count, updates last_position, and forwards to the
virtual handleOccurrence, abstracted here as the `handle` callback on the
typed storage. -/
def optionAddOccurrence (handle : σ → Nat → String → String → Bool × σ)
    (pos : Nat) (argName value : String) (multiArg : Bool)
    (t : TargetOpt σ) : Bool × TargetOpt σ :=
  if ¬multiArg ∧ t.core.misc.testBit miscDefaultOptionBit = false ∧
      (t.core.occurrences = .optional ∨ t.core.occurrences = .required) ∧
      1 ≤ t.core.numOccurrences then
    (true, t)
  else
    let core' := { t.core with
        numOccurrences :=
          if multiArg then t.core.numOccurrences
          else (t.core.numOccurrences + 1) % 65536
        position := pos % 65536 }
    let r := handle t.store pos argName value
    (r.1, { core := core', store := r.2 })

/-- alias::addOccurrence (Alias.h lines 21-24): discard the matched name
and forward verbatim — `return AliasFor->addOccurrence(pos,
AliasFor->ArgStr, Value, MultiArg)`.  The alias's own Option state `a` is
never touched. -/
def aliasAddOccurrence (handle : σ → Nat → String → String → Bool × σ)
    (pos : Nat) (argName value : String) (multiArg : Bool)
    (a : OptionCore) (t : TargetOpt σ) :
    Bool × OptionCore × TargetOpt σ :=
  let r := optionAddOccurrence handle pos t.core.argStr value multiArg t
  (r.1, a, r.2)

/-- C1: the alias forwards addOccurrence verbatim to its target — for
every position, matched name, value and multi-arg mode, the returned error
flag and the target's resulting state (occurrence count, last position,
storage) are exactly those of calling the target's addOccurrence directly
with the target's own ArgStr, and the alias's own occurrence counter and
storage state come back untouched. -/
theorem alias_addOccurrence_transparent (σ : Type)
    (handle : σ → Nat → String → String → Bool × σ) (pos : Nat)
    (argName value : String) (multiArg : Bool) (a : OptionCore)
    (t : TargetOpt σ) :
    (aliasAddOccurrence handle pos argName value multiArg a t
      = ((optionAddOccurrence handle pos t.core.argStr value multiArg t).1,
         a,
         (optionAddOccurrence handle pos t.core.argStr value multiArg t).2)) ∧
    (aliasAddOccurrence handle pos argName value multiArg a t).2.1 = a :=
  ⟨rfl, rfl⟩

/-- Outcome of the option-processing entry point: either the call returns
a boolean to its caller, or it terminates the process with an exit code. -/
inductive ParseResult where
  | returned (b : Bool)
  | exited (code : Nat)
deriving DecidableEq, Repr

/-- Modelled from the spec: the definition of ParseCommandLineOptions is
not under src/ — CommandLine.h (part_001) lines 21-39 give only its
declaration and contract: "Returns true on success.  Otherwise, this will
print the error message to stderr and exit if Errs is not set (nullptr by
default), or print the error message to Errs and return false if Errs is
provided."  `parseSucceeded` abstracts the outcome of the token walk and
validation; `hasErrsSink` says whether a non-null error stream was passed;
the terminating exit code is 1 per spec section 6 ("0 on success; 1 on any
parse-time error under terminating mode"). -/
def parseCommandLineOptions (parseSucceeded : Bool) (hasErrsSink : Bool) :
    ParseResult :=
  if parseSucceeded then .returned true
  else if hasErrsSink then .returned false
  else .exited 1

/-- C5: ParseCommandLineOptions returns true on success; on failure with a
non-null error sink it returns false without terminating the process; on
failure without an error sink it terminates the process with a nonzero
exit code. -/
theorem parseCommandLineOptions_outcomes :
    (∀ hasSink : Bool,
        parseCommandLineOptions true hasSink = .returned true) ∧
    parseCommandLineOptions false true = .returned false ∧
    (∃ c, parseCommandLineOptions false false = .exited c ∧ c ≠ 0) :=
  ⟨fun _ => rfl, rfl, 1, rfl, one_ne_zero⟩

/-- One ManagedStatic instance (ManagedStatic.h): its identity, whether
`Ptr` is non-null (the object has been constructed), and whether
`DeleterFn` is non-null.  The intrusive `Next` chain is represented by the
world's `staticList` below. -/
structure ManagedStaticInst where
  id : Nat
  ptr : Bool
  deleter : Bool
deriving DecidableEq, Repr

/-- The process state of the ManagedStatic mechanism
(ManagedStatic.cc): `staticList` is the intrusive `static_list` chain of
registered instances, head = most recently registered; `insts` are all the
ManagedStatic objects of the process. -/
structure ManagedStaticWorld where
  staticList : List Nat
  insts : List ManagedStaticInst
deriving DecidableEq, Repr

/-- Set the Ptr/DeleterFn fields of the instance with the given id (both
are assigned together in RegisterManagedStatic and both nulled together in
destroy). -/
def setInstFlags (insts : List ManagedStaticInst) (i : Nat) (b : Bool) :
    List ManagedStaticInst :=
  insts.map fun inst => if inst.id = i then { inst with ptr := b, deleter := b }
                        else inst

/-- ManagedStaticBase::isConstructed (ManagedStatic.h): `Ptr != nullptr`,
read off the world for the instance with the given id. -/
def isConstructed (w : ManagedStaticWorld) (i : Nat) : Bool :=
  w.insts.any fun inst => inst.id == i && inst.ptr

/-- ManagedStaticBase::RegisterManagedStatic (ManagedStatic.cc lines
18-44): under the mutex, if `Ptr` is still null, run the creator, store
the pointer and deleter, and push this instance onto `static_list`
(`Next = static_list; static_list = this`); if already constructed, do
nothing. -/
def registerManagedStatic (w : ManagedStaticWorld) (i : Nat) :
    ManagedStaticWorld :=
  if isConstructed w i then w
  else { staticList := i :: w.staticList, insts := setInstFlags w.insts i true }

/-- The body of the `while (static_list) static_list->destroy()` loop of
commandline_shutdown, unrolled along the chain: each step destroys the head
instance — unlink it, run the deleter, null out `Ptr` and `DeleterFn`
(ManagedStatic.cc lines 46-60) — and records the destruction order. -/
def shutdownAux : List Nat → List ManagedStaticInst →
    List Nat × List ManagedStaticInst
  | [], insts => ([], insts)
  | i :: rest, insts =>
      let insts' := setInstFlags insts i false
      let r := shutdownAux rest insts'
      (i :: r.1, r.2)

/-- commandline_shutdown (ManagedStatic.cc lines 62-66): destroy the head
of `static_list` until the chain is empty.  Returns the observed
destruction order together with the final world. -/
def commandlineShutdown (w : ManagedStaticWorld) :
    List Nat × ManagedStaticWorld :=
  let r := shutdownAux w.staticList w.insts
  (r.1, { staticList := [], insts := r.2 })

/-- Registration of a sequence of ManagedStatic instances, in order (each
first-touch triggers RegisterManagedStatic). -/
def registerAll (ids : List Nat) (w : ManagedStaticWorld) :
    ManagedStaticWorld :=
  ids.foldl registerManagedStatic w

/-- A process start state: every ManagedStatic exists with null `Ptr` and
`DeleterFn` and nothing on `static_list`. -/
def freshWorld (ids : List Nat) : ManagedStaticWorld :=
  { staticList := [], insts := ids.map fun i => ⟨i, false, false⟩ }

/-- The shutdown loop destroys exactly the instances on static_list, in
chain order. -/
theorem shutdownAux_fst (l : List Nat) (insts : List ManagedStaticInst) :
    (shutdownAux l insts).1 = l := by
  induction l generalizing insts with
  | nil => rfl
  | cons i rest ih => simp [shutdownAux, ih]

/-- Constructedness of an id other than the one whose flags are set is
unaffected by setInstFlags. -/
theorem any_setInstFlags_ne (insts : List ManagedStaticInst) (i j : Nat)
    (b : Bool) (h : j ≠ i) :
    ((setInstFlags insts i b).any fun inst => inst.id == j && inst.ptr)
      = (insts.any fun inst => inst.id == j && inst.ptr) := by
  induction insts with
  | nil => rfl
  | cons x xs ih =>
      simp only [setInstFlags, List.map_cons, List.any_cons] at *
      by_cases hx : x.id = i
      · have hij : (i == j) = false := by
          simp only [beq_eq_false_iff_ne]
          exact fun hh => h hh.symm
        simp [hx, hij, ih]
      · simp [hx, ih]

/-- After the shutdown loop runs over a chain containing every constructed
instance, every instance has null `Ptr` and null `DeleterFn`. -/
theorem shutdownAux_clears (l : List Nat) (insts : List ManagedStaticInst)
    (hmem : ∀ inst ∈ insts, inst.ptr = true → inst.id ∈ l)
    (hdel : ∀ inst ∈ insts, inst.deleter = inst.ptr) :
    ∀ inst ∈ (shutdownAux l insts).2, inst.ptr = false ∧
      inst.deleter = false := by
  induction l generalizing insts with
  | nil =>
      intro inst hin
      have h1 : inst.ptr = false := by
        by_contra hne
        have : inst.ptr = true := by
          cases hp : inst.ptr
          · exact absurd hp hne
          · rfl
        exact absurd (hmem inst hin this) (List.not_mem_nil inst.id)
      exact ⟨h1, (hdel inst hin).trans h1⟩
  | cons i rest ih =>
      intro inst hin
      refine ih (setInstFlags insts i false) ?_ ?_ inst hin
      · intro inst' hin' hp
        obtain ⟨inst0, hin0, heq⟩ := List.mem_map.mp hin'
        by_cases hid : inst0.id = i
        · rw [if_pos hid] at heq
          rw [← heq] at hp
          simp at hp
        · rw [if_neg hid] at heq
          subst heq
          have := hmem inst0 hin0 hp
          simp only [List.mem_cons] at this
          exact this.resolve_left hid
      · intro inst' hin'
        obtain ⟨inst0, hin0, heq⟩ := List.mem_map.mp hin'
        by_cases hid : inst0.id = i
        · rw [if_pos hid] at heq
          rw [← heq]
        · rw [if_neg hid] at heq
          subst heq
          exact hdel inst0 hin0

/-- Registering a Nodup sequence of so-far-unconstructed instances pushes
them onto static_list in order (so the chain holds their reverse), and
keeps the invariant that every constructed instance is on the chain with
its deleter set in step with its pointer. -/
theorem registerAll_spec (ids : List Nat) (w : ManagedStaticWorld)
    (hnd : ids.Nodup) (hnc : ∀ i ∈ ids, isConstructed w i = false)
    (hinv : ∀ inst ∈ w.insts, inst.deleter = inst.ptr ∧
      (inst.ptr = true → inst.id ∈ w.staticList)) :
    (registerAll ids w).staticList = ids.reverse ++ w.staticList ∧
    (∀ inst ∈ (registerAll ids w).insts, inst.deleter = inst.ptr ∧
      (inst.ptr = true → inst.id ∈ (registerAll ids w).staticList)) := by
  induction ids generalizing w with
  | nil => exact ⟨by simp [registerAll], fun inst hin => hinv inst hin⟩
  | cons i rest ih =>
      have hci : isConstructed w i = false := hnc i (List.mem_cons_self i rest)
      have hreg : registerManagedStatic w i
          = { staticList := i :: w.staticList
              insts := setInstFlags w.insts i true } := by
        simp [registerManagedStatic, hci]
      have hstep : registerAll (i :: rest) w
          = registerAll rest (registerManagedStatic w i) := by
        simp [registerAll]
      rw [hstep, hreg]
      have hnd' : rest.Nodup := (List.nodup_cons.mp hnd).2
      have hni : i ∉ rest := (List.nodup_cons.mp hnd).1
      have hnc' : ∀ j ∈ rest,
          isConstructed { staticList := i :: w.staticList
                          insts := setInstFlags w.insts i true } j = false := by
        intro j hj
        have hji : j ≠ i := fun hh => hni (hh ▸ hj)
        have := any_setInstFlags_ne w.insts i j true hji
        simpa [isConstructed, this] using hnc j (List.mem_cons_of_mem i hj)
      have hinv' : ∀ inst ∈ setInstFlags w.insts i true,
          inst.deleter = inst.ptr ∧
          (inst.ptr = true → inst.id ∈ i :: w.staticList) := by
        intro inst' hin'
        obtain ⟨inst0, hin0, heq⟩ := List.mem_map.mp hin'
        by_cases hid : inst0.id = i
        · rw [if_pos hid] at heq
          rw [← heq]
          exact ⟨rfl, fun _ => by simp [hid]⟩
        · rw [if_neg hid] at heq
          subst heq
          exact ⟨(hinv inst0 hin0).1,
            fun hp => List.mem_cons_of_mem i ((hinv inst0 hin0).2 hp)⟩
      obtain ⟨hsl, hinv2⟩ := ih _ hnd' hnc' hinv'
      refine ⟨?_, hinv2⟩
      rw [hsl]
      simp [List.append_assoc]

/-- C10: starting from process start, after any Nodup sequence of
ManagedStatic registrations, commandline_shutdown destroys the constructed
singletons in exactly the reverse of their construction (registration)
order, and afterwards static_list is empty, every instance has its pointer
and deleter reset to null, and no instance isConstructed. -/
theorem commandlineShutdown_reverse_and_clears (ids : List Nat)
    (hnd : ids.Nodup) :
    (commandlineShutdown (registerAll ids (freshWorld ids))).1
      = ids.reverse ∧
    (commandlineShutdown (registerAll ids (freshWorld ids))).2.staticList
      = [] ∧
    (∀ inst ∈ (commandlineShutdown
        (registerAll ids (freshWorld ids))).2.insts,
      inst.ptr = false ∧ inst.deleter = false) ∧
    (∀ i : Nat, isConstructed
        (commandlineShutdown (registerAll ids (freshWorld ids))).2 i
      = false) := by
  have hfresh1 : ∀ i ∈ ids, isConstructed (freshWorld ids) i = false := by
    intro i _
    simp [isConstructed, freshWorld, List.any_map, Function.comp]
  have hfresh2 : ∀ inst ∈ (freshWorld ids).insts,
      inst.deleter = inst.ptr ∧
      (inst.ptr = true → inst.id ∈ (freshWorld ids).staticList) := by
    intro inst hin
    obtain ⟨j, _, heq⟩ := List.mem_map.mp hin
    rw [← heq]
    exact ⟨rfl, by simp⟩
  obtain ⟨hsl, hinv⟩ := registerAll_spec ids (freshWorld ids) hnd hfresh1 hfresh2
  have hsl' : (registerAll ids (freshWorld ids)).staticList = ids.reverse := by
    simpa [freshWorld] using hsl
  have hclear := shutdownAux_clears
    (registerAll ids (freshWorld ids)).staticList
    (registerAll ids (freshWorld ids)).insts
    (fun inst hin => (hinv inst hin).2) (fun inst hin => (hinv inst hin).1)
  refine ⟨?_, rfl, ?_, ?_⟩
  · rw [commandlineShutdown]
    simpa [shutdownAux_fst] using hsl'
  · intro inst hin
    exact hclear inst hin
  · intro i
    rw [isConstructed]
    rw [List.any_eq_false]
    intro inst hin
    have := (hclear inst hin).1
    simp [this]

/-- Witness for C10 at three concrete singletons registered in the order
0, 1, 2: shutdown destroys them as 2, 1, 0. -/
theorem commandlineShutdown_reverse_and_clears_witness :
    (commandlineShutdown (registerAll [0, 1, 2] (freshWorld [0, 1, 2]))).1
      = [2, 1, 0] :=
  (commandlineShutdown_reverse_and_clears [0, 1, 2] (by decide)).1

end Commandline
